import Mathlib

/-!
# Chit Chat server: Lamport clock, client registry, broadcast and the Chat handler

A shallow embedding of the server in `Deprecated Code/main.go`.

* Go strings are Lean strings; `len` is the UTF-8 byte length, as in Go.
* `int32` ids and `int64` timestamps are integers; `int64` addition wraps modulo `2^64`.
* The map `clients` is an association list with unique keys.
* The mutex `s.mu` is a field of the server state: locked or free. One routine is traced at a
  time, to its end or to the point where it blocks; no other routine runs meanwhile, so a
  routine that calls `Lock` on a locked mutex, whoever locked it, blocks for ever.
* A routine being traced carries the server state and the list of actions it has performed.
* The channel `client.err` has capacity 1 and `Chat` receives from it once, so the first two
  sends on it never block; no path of the receive goroutine performs more than two. Sends on it
  are therefore recorded in the trace and never block the routine.
* `log.Printf` calls have no effect on the server and are left out.
-/

namespace ChitChat

/-! ## Strings -/

/-- Go `unicode.IsSpace`: the Latin-1 spaces and the Unicode White_Space code points. -/
def isSpace (c : Char) : Bool :=
  let n := c.toNat
  n == 0x09 || n == 0x0A || n == 0x0B || n == 0x0C || n == 0x0D || n == 0x20 ||
  n == 0x85 || n == 0xA0 || n == 0x1680 || (0x2000 ≤ n && n ≤ 0x200A) ||
  n == 0x2028 || n == 0x2029 || n == 0x202F || n == 0x205F || n == 0x3000

/-- Go `strings.TrimSpace`: drop leading and trailing white space. -/
def TrimSpace (s : String) : String :=
  ⟨(s.data.dropWhile isSpace).rdropWhile isSpace⟩

/-- Go builtin `len` on a string: the number of bytes of its UTF-8 encoding. -/
def len (s : String) : Nat := s.utf8ByteSize

/-- Number of characters (Unicode code points) of a string. -/
def charCount (s : String) : Nat := s.data.length

/-- The verb `%d` of `fmt.Sprintf` on an integer. -/
def fmtInt : Int → String
  | Int.ofNat n => Nat.repr n
  | Int.negSucc n => "-" ++ Nat.repr (n + 1)

/-! ## Lamport clock arithmetic -/

/-- Smallest `int64`. -/
def minInt64 : Int := -(2 ^ 63)

/-- Largest `int64`. -/
def maxInt64 : Int := 2 ^ 63 - 1

/-- Two's complement wrap-around of an integer into the `int64` range. -/
def wrapInt64 (x : Int) : Int := (x + 2 ^ 63) % 2 ^ 64 - 2 ^ 63

/-- The helper `max` of main.go, lines 245-250. -/
def max (a b : Int) : Int := if a > b then a else b

/-- The update `s.clock = max(s.clock, msg.Timestamp) + 1` (main.go lines 76, 106, 131, 151). -/
def observe (clock t : Int) : Int := wrapInt64 (max clock t + 1)

/-- The update `s.clock++` of removeClient (main.go line 198). -/
def tick (clock : Int) : Int := wrapInt64 (clock + 1)

/-- One clock update performed by the server. -/
inductive ClockOp where
  | observe (t : Int)
  | tick
deriving DecidableEq, Repr

/-- New clock value after one update. -/
def ClockOp.apply (c : Int) : ClockOp → Int
  | .observe t => ChitChat.observe c t
  | .tick => ChitChat.tick c

/-- Clock value after a sequence of updates. -/
def clockAfter (c : Int) (ops : List ClockOp) : Int := ops.foldl ClockOp.apply c

/-- The values produced by a sequence of updates, in order. -/
def produced (c : Int) : List ClockOp → List Int
  | [] => []
  | op :: rest => op.apply c :: produced (op.apply c) rest

/-- The input timestamps passed by a sequence of updates, in order. -/
def inputs : List ClockOp → List Int
  | [] => []
  | .observe t :: rest => t :: inputs rest
  | .tick :: rest => inputs rest

/-- Every input timestamp is an `int64`. -/
def inputsInt64 (ops : List ClockOp) : Prop :=
  ∀ t ∈ inputs ops, minInt64 ≤ t ∧ t ≤ maxInt64

/-- No update of the sequence overflows: before each update the clock, and the timestamp
    passed with it, are below the largest `int64`. -/
def noOverflow (c : Int) : List ClockOp → Prop
  | [] => True
  | .observe t :: rest => max c t < maxInt64 ∧ noOverflow (ChitChat.observe c t) rest
  | .tick :: rest => c < maxInt64 ∧ noOverflow (ChitChat.tick c) rest

/-! ## Wire messages -/

/-- Modelled from the spec: the generated enum `pb.EventType` (package grpc) is not in the
    sources; the spec lists the kinds JOIN, MESSAGE, LEAVE. -/
inductive EventType where
  | JOIN
  | MESSAGE
  | LEAVE
deriving DecidableEq, Repr

/-- Modelled from the spec: the generated inbound message `pb.JoinMsgLeave`, with the fields
    main.go reads. -/
structure JoinMsgLeave where
  Id : Int
  ClientName : String
  Type_ : EventType
  Timestamp : Int
  Msg : String
deriving DecidableEq, Repr

/-- Modelled from the spec: the generated outbound message `pb.ServerMessage`, with the fields
    main.go writes. -/
structure ServerMessage where
  SenderId : Int
  SenderName : String
  MsgStream : String
  Type_ : EventType
  Timestamp : Int
deriving DecidableEq, Repr

/-- A Go `error` value as far as the server distinguishes them. -/
inductive GoError where
  | EOF
  | other (text : String)
deriving DecidableEq, Repr

/-- Result of `stream.Recv()`: a message, or an error (`io.EOF` on clean closure). -/
inductive RecvResult where
  | msg (m : JoinMsgLeave)
  | fail (e : GoError)
deriving DecidableEq, Repr

/-! ## Server state -/

/-- The struct `Client` (main.go lines 21-27). A stream is named by a handle; the channel `err`
    is private to the connection and appears as `Effect.signal` in the trace. -/
structure Client where
  id : Int
  name : String
  stream : Nat
  active : Bool
deriving DecidableEq, Repr

/-- The map `map[int32]*Client`. -/
abbrev Registry := AList (fun _ : Int => Client)

/-- The struct `ChatServiceServer` (main.go lines 30-35); `mu` tells whether the mutex is
    locked. -/
structure ChatServiceServer where
  mu : Bool
  clients : Registry
  clock : Int

/-- An action performed by a routine. -/
inductive Effect where
  -- call of `s.broadcast(msg)`
  | broadcast (msg : ServerMessage)
  -- goroutine started inside broadcast: `cl.stream.Send(msg)` for the entry at `key`
  | goSend (key : Int) (stream : Nat) (msg : ServerMessage)
  -- direct `client.stream.Send(msg)` from the handler
  | send (stream : Nat) (msg : ServerMessage)
  -- removal `delete(s.clients, id)`
  | delete (id : Int)
  -- send `client.err <- e` on the completion channel
  | signal (e : GoError)
deriving DecidableEq, Repr

/-- A routine being traced: the server state and the actions of the routine so far. -/
structure Routine where
  s : ChatServiceServer
  out : List Effect

/-- How a traced piece of code ends. -/
inductive Outcome (α : Type) where
  -- it ran to its end with a result
  | done (a : α) (r : Routine)
  -- it blocks for ever in `s.mu.Lock()`, the mutex being locked
  | deadlock (r : Routine)
  -- Go run-time error: `s.mu.Unlock()` of a mutex that is not locked
  | fatal (r : Routine)

/-- Sequencing: continue only after a normal end. -/
def Outcome.andThen {α β : Type} (o : Outcome α) (f : α → Routine → Outcome β) : Outcome β :=
  match o with
  | .done a r => f a r
  | .deadlock r => .deadlock r
  | .fatal r => .fatal r

/-- The routine state an outcome ends in. -/
def Outcome.routine {α : Type} : Outcome α → Routine
  | .done _ r => r
  | .deadlock r => r
  | .fatal r => r

/-- Whether the code blocked in `s.mu.Lock()`. -/
def Outcome.isDeadlock {α : Type} : Outcome α → Bool
  | .deadlock _ => true
  | _ => false

/-- Append an action to the trace. -/
def emit (e : Effect) (r : Routine) : Routine := { r with out := r.out ++ [e] }

/-- The call `s.mu.Lock()` on the non-reentrant `sync.Mutex`: it blocks while the mutex is
    locked, by this routine or by any other. -/
def lock (r : Routine) : Outcome Unit :=
  if r.s.mu then .deadlock r else .done () { r with s := { r.s with mu := true } }

/-- The call `s.mu.Unlock()`. -/
def unlock (r : Routine) : Outcome Unit :=
  if r.s.mu then .done () { r with s := { r.s with mu := false } } else .fatal r

/-- The statement `s.clock = max(s.clock, msg.Timestamp) + 1`. -/
def setObserve (t : Int) (r : Routine) : Routine :=
  { r with s := { r.s with clock := observe r.s.clock t } }

/-! ## broadcast and removeClient -/

/-- The goroutines started by the loop of broadcast (main.go lines 181-190): one send for each
    entry of the map whose `active` flag is set. -/
def spawnSends (msg : ServerMessage) (clients : Registry) : List Effect :=
  (clients.entries.filter fun e => e.2.active).map fun e => Effect.goSend e.1 e.2.stream msg

/-- The method `broadcast` (main.go lines 177-191). -/
def broadcast (msg : ServerMessage) (r : Routine) : Outcome Unit :=
  (lock (emit (.broadcast msg) r)).andThen fun _ r1 =>
    unlock { r1 with out := r1.out ++ spawnSends msg r1.s.clients }

/-- The LEAVE notice built by removeClient (main.go lines 204-210). -/
def removeClientNotice (client : Client) (leaveLamport : Int) : ServerMessage :=
  { SenderId := client.id
    SenderName := client.name
    MsgStream := client.name ++ " left Chit Chat"
    Type_ := .LEAVE
    Timestamp := leaveLamport }

/-- The method `removeClient` (main.go lines 194-211); the deferred unlock runs when the body
    returns. -/
def removeClient (client : Client) (r : Routine) : Outcome Unit :=
  (lock r).andThen fun _ r1 =>
    let r2 : Routine := { r1 with s := { r1.s with clock := tick r1.s.clock } }
    let leaveLamport := r2.s.clock
    let r3 : Routine :=
      emit (.delete client.id) { r2 with s := { r2.s with clients := r2.s.clients.erase client.id } }
    (broadcast (removeClientNotice client leaveLamport) r3).andThen fun _ r4 =>
      unlock r4

/-! ## The Chat handler -/

/-- The JOIN notice (main.go lines 83-89). -/
def joinNotice (client : Client) (joinLamport : Int) : ServerMessage :=
  { SenderId := client.id
    SenderName := client.name
    MsgStream := "Participant " ++ client.name ++ " joined Chit Chat at logical time L="
      ++ fmtInt joinLamport
    Type_ := .JOIN
    Timestamp := joinLamport }

/-- The LEAVE notice of the handler (main.go lines 111-117). -/
def leaveNotice (client : Client) (currentLamport : Int) : ServerMessage :=
  { SenderId := client.id
    SenderName := client.name
    MsgStream := "Participant " ++ client.name ++ " left Chit Chat at logical time L="
      ++ fmtInt currentLamport
    Type_ := .LEAVE
    Timestamp := currentLamport }

/-- The rejection sent to the sender of an oversize message (main.go lines 138-144). -/
def rejectNotice (cleanMsg : String) (currentLamport : Int) : ServerMessage :=
  { SenderId := 0
    SenderName := "Server"
    MsgStream := "Message too long (" ++ Nat.repr (len cleanMsg) ++ " chars). Limit is 128."
    Type_ := .MESSAGE
    Timestamp := currentLamport }

/-- The MESSAGE event handed to broadcast (main.go lines 158-164). -/
def chatMessage (client : Client) (msg : JoinMsgLeave) (currentLamport : Int) : ServerMessage :=
  { SenderId := client.id
    SenderName := client.name
    MsgStream := msg.Msg
    Type_ := .MESSAGE
    Timestamp := currentLamport }

/-- The handshake of `Chat` (main.go lines 42-89): the first read, the JOIN check, the
    registration and the JOIN broadcast. The result is the error `Chat` returns, or the client
    the receive loop is started for. -/
def Chat.handshake (stream : Nat) (first : RecvResult) (r : Routine) :
    Outcome (Except GoError Client) :=
  match first with
  | .fail err => .done (.error err) r
  | .msg msg =>
    if msg.Type_ ≠ .JOIN then
      .done (.error (.other "expected JOIN as first message")) r
    else
      (lock r).andThen fun _ r1 =>
        if (r1.s.clients.lookup msg.Id).isSome then
          (unlock r1).andThen fun _ r2 =>
            .done (.error (.other "client ID already connected")) r2
        else
          let cleanName := TrimSpace msg.ClientName
          let client : Client := { id := msg.Id, name := cleanName, stream := stream, active := true }
          let r2 : Routine := { r1 with s := { r1.s with clients := r1.s.clients.insert client.id client } }
          let r3 := setObserve msg.Timestamp r2
          let joinLamport := r3.s.clock
          (unlock r3).andThen fun _ r4 =>
            (broadcast (joinNotice client joinLamport) r4).andThen fun _ r5 =>
              .done (.ok client) r5

/-- How the receive goroutine stands after the reads it was given. -/
inductive LoopEnd where
  -- the goroutine function returned
  | returned
  -- the goroutine is blocked in `stream.Recv()`, waiting for the next event
  | awaitingRecv
deriving DecidableEq, Repr

/-- The code after the receive loop (main.go lines 167-169). -/
def Chat.afterLoop (client : Client) (r : Routine) : Outcome LoopEnd :=
  (removeClient client r).andThen fun _ r1 =>
    .done .returned (emit (.signal .EOF) r1)

/-- The receive goroutine of `Chat` (main.go lines 92-170), run on the successive results of
    `stream.Recv()`. -/
def Chat.recvLoop (client : Client) : List RecvResult → Routine → Outcome LoopEnd
  | [], r => .done .awaitingRecv r
  | .fail .EOF :: _, r => Chat.afterLoop client r
  | .fail (.other e) :: _, r => Chat.afterLoop client (emit (.signal (.other e)) r)
  | .msg msg :: rest, r =>
    if msg.Type_ = .LEAVE then
      (lock r).andThen fun _ r1 =>
        let r2 := setObserve msg.Timestamp r1
        let currentLamport := r2.s.clock
        (unlock r2).andThen fun _ r3 =>
          (broadcast (leaveNotice client currentLamport) r3).andThen fun _ r4 =>
            (removeClient client r4).andThen fun _ r5 =>
              .done .returned (emit (.signal .EOF) r5)
    else
      let cleanMsg := TrimSpace msg.Msg
      if len cleanMsg > 128 then
        (lock r).andThen fun _ r1 =>
          let r2 := setObserve msg.Timestamp r1
          let currentLamport := r2.s.clock
          (unlock r2).andThen fun _ r3 =>
            Chat.recvLoop client rest (emit (.send client.stream (rejectNotice cleanMsg currentLamport)) r3)
      else
        (lock r).andThen fun _ r1 =>
          let r2 := setObserve msg.Timestamp r1
          let currentLamport := r2.s.clock
          (unlock r2).andThen fun _ r3 =>
            (broadcast (chatMessage client msg currentLamport) r3).andThen fun _ r4 =>
              Chat.recvLoop client rest r4

/-- A routine that starts on the server state `s` and has done nothing yet. -/
def fresh (s : ChatServiceServer) : Routine := { s := s, out := [] }

/-- First value sent on the completion channel, if any. -/
def firstSignal : List Effect → Option GoError
  | [] => none
  | .signal e :: _ => some e
  | _ :: rest => firstSignal rest

/-- What a whole run of `Chat` leaves behind. -/
structure ChatRun where
  -- the error `Chat` returns; `none` when `Chat` never returns
  ret : Option GoError
  s : ChatServiceServer
  out : List Effect

/-- The method `Chat` (main.go lines 42-174) on a first read and the later reads: the handshake,
    then the receive goroutine, with `Chat` returning the first value of the completion channel. -/
def Chat (stream : Nat) (first : RecvResult) (rest : List RecvResult) (s : ChatServiceServer) :
    ChatRun :=
  match Chat.handshake stream first (fresh s) with
  | .done (.error err) r => { ret := some err, s := r.s, out := r.out }
  | .done (.ok client) r =>
    let g := (Chat.recvLoop client rest r).routine
    { ret := firstSignal g.out, s := g.s, out := g.out }
  | .deadlock r => { ret := none, s := r.s, out := r.out }
  | .fatal r => { ret := none, s := r.s, out := r.out }

/-! ## Reading a trace -/

/-- The events handed to broadcast, in order. -/
def broadcasts : List Effect → List ServerMessage
  | [] => []
  | .broadcast m :: rest => m :: broadcasts rest
  | _ :: rest => broadcasts rest

/-- The direct sends of the handler, in order, with the stream they go to. -/
def directSends : List Effect → List (Nat × ServerMessage)
  | [] => []
  | .send st m :: rest => (st, m) :: directSends rest
  | _ :: rest => directSends rest

/-- The values sent on the completion channel, in order. -/
def signals : List Effect → List GoError
  | [] => []
  | .signal e :: rest => e :: signals rest
  | _ :: rest => signals rest

/-- The LEAVE events handed to broadcast whose sender is `id`. -/
def leaveBroadcasts (id : Int) (out : List Effect) : List ServerMessage :=
  (broadcasts out).filter fun m => m.Type_ = .LEAVE ∧ m.SenderId = id

/-! ## Properties stated about the clock -/

/-- Clock monotonicity of a sequence of updates started at clock `c`: the value produced by each
    update is greater than every value produced before it and than every timestamp passed up to
    and including that update. -/
def clockMonotone (c : Int) (ops : List ClockOp) : Prop :=
  ∀ pre op post, ops = pre ++ op :: post →
    (∀ v ∈ produced c pre, v < op.apply (clockAfter c pre)) ∧
    (∀ t ∈ inputs (pre ++ [op]), t < op.apply (clockAfter c pre))

/-- The overflow check is decidable. -/
instance noOverflow.decidable : (c : Int) → (ops : List ClockOp) → Decidable (noOverflow c ops)
  | _, [] => isTrue trivial
  | c, .observe t :: rest =>
    @instDecidableAnd _ _ _ (noOverflow.decidable (ChitChat.observe c t) rest)
  | c, .tick :: rest =>
    @instDecidableAnd _ _ _ (noOverflow.decidable (ChitChat.tick c) rest)

/-! ## Reading the outcome of the handshake -/

/-- A JOIN message from a new client named Ann, with white space around the name. -/
def sampleJoin : JoinMsgLeave :=
  { Id := 3, ClientName := " Ann\n", Type_ := .JOIN, Timestamp := 4, Msg := "" }

/-- The client the handshake registers for `sampleJoin` on stream 7. -/
def ann : Client := { id := 3, name := "Ann", stream := 7, active := true }

/-- A second client, on stream 8. -/
def bob : Client := { id := 5, name := "Bob", stream := 8, active := true }

/-- A server with no client, clock 2 and the mutex free. -/
def emptyServer : ChatServiceServer := { mu := false, clients := ∅, clock := 2 }

/-- A server where Ann and Bob are registered, with clock 10 and the mutex free. -/
def twoClients : ChatServiceServer :=
  { mu := false, clients := ((∅ : Registry).insert 3 ann).insert 5 bob, clock := 10 }

/-- The server as `main` creates it (main.go lines 224-227). -/
def newServer : ChatServiceServer := { mu := false, clients := ∅, clock := 0 }

/-- A JOIN message from Bob. -/
def bobJoin : JoinMsgLeave :=
  { Id := 5, ClientName := "Bob", Type_ := .JOIN, Timestamp := 1, Msg := "" }

/-- A JOIN message from Dan, with an id nobody uses. -/
def danJoin : JoinMsgLeave :=
  { Id := 9, ClientName := "Dan", Type_ := .JOIN, Timestamp := 1, Msg := "" }

/-- A JOIN message from Dan carrying the largest `int64` timestamp. -/
def lateJoin : JoinMsgLeave :=
  { Id := 9, ClientName := "Dan", Type_ := .JOIN, Timestamp := maxInt64, Msg := "" }

/-- The server after Ann joined the new server on stream 7; her receive loop waits. -/
def annJoined : ChatServiceServer := (Chat 7 (.msg sampleJoin) [] newServer).s

/-- The server after Bob then joined on stream 8 and his stream ended. -/
def bobGone : ChatServiceServer := (Chat 8 (.msg bobJoin) [.fail .EOF] annJoined).s

/-- A text of 65 two-byte characters (e with acute accent): 65 characters, 130 bytes. -/
def accentedText : String := ⟨List.replicate 65 (Char.ofNat 233)⟩

/-- A MESSAGE event from Ann carrying `accentedText`. -/
def accentedMessage : JoinMsgLeave :=
  { Id := 3, ClientName := "Ann", Type_ := .MESSAGE, Timestamp := 11, Msg := accentedText }

/-- A MESSAGE event from Ann whose text has white space around it. -/
def paddedMessage : JoinMsgLeave :=
  { Id := 3, ClientName := "Ann", Type_ := .MESSAGE, Timestamp := 11, Msg := "  hi \n" }

/-- A text of 130 one-byte characters with white space before and after. -/
def longText : String := ⟨' ' :: '\t' :: (List.replicate 130 'a' ++ ['\n'])⟩

/-- A MESSAGE event from Ann carrying `longText`. -/
def longMessage : JoinMsgLeave :=
  { Id := 3, ClientName := "Ann", Type_ := .MESSAGE, Timestamp := 11, Msg := longText }

/-- A MESSAGE event from Ann carrying `longText` and the largest `int64` timestamp. -/
def lateMessage : JoinMsgLeave :=
  { Id := 3, ClientName := "Ann", Type_ := .MESSAGE, Timestamp := maxInt64, Msg := longText }

/-- A LEAVE event from Ann. -/
def leaveMessage : JoinMsgLeave :=
  { Id := 3, ClientName := "Ann", Type_ := .LEAVE, Timestamp := 11, Msg := "Ann left the chat" }

/-- A MESSAGE event from Ann: one letter followed by 200 spaces. -/
def spacedMessage : JoinMsgLeave :=
  { Id := 3, ClientName := "Ann", Type_ := .MESSAGE, Timestamp := 11,
    Msg := ⟨'a' :: List.replicate 200 ' '⟩ }

/-! ## Reading the sends of a broadcast -/

set_option maxRecDepth 20000

/-! ## C1: the Lamport clock -/

theorem wrapInt64_id {x : Int} (h1 : minInt64 ≤ x) (h2 : x ≤ maxInt64) : wrapInt64 x = x := by
  unfold wrapInt64; unfold minInt64 at h1; unfold maxInt64 at h2
  omega

theorem max_ge_left (a b : Int) : a ≤ max a b := by
  unfold max; split <;> omega

theorem max_ge_right (a b : Int) : b ≤ max a b := by
  unfold max; split <;> omega

theorem observe_eq {c t : Int} (hc : minInt64 ≤ c) (h : max c t < maxInt64) :
    observe c t = max c t + 1 := by
  unfold observe
  have := max_ge_left c t
  exact wrapInt64_id (by omega) (by omega)

theorem tick_eq {c : Int} (hc : minInt64 ≤ c) (h : c < maxInt64) : tick c = c + 1 := by
  unfold tick
  exact wrapInt64_id (by omega) (by omega)

theorem inputs_append (xs ys : List ClockOp) : inputs (xs ++ ys) = inputs xs ++ inputs ys := by
  induction xs with
  | nil => rfl
  | cons x xs ih => cases x <;> simp [inputs, ih]

theorem noOverflow_append (c : Int) (xs ys : List ClockOp) :
    noOverflow c (xs ++ ys) → noOverflow (clockAfter c xs) ys := by
  induction xs generalizing c with
  | nil => intro h; simpa [clockAfter] using h
  | cons x xs ih =>
    intro h
    cases x with
    | observe t => exact ih _ h.2
    | tick => exact ih _ h.2

/-- While no update overflows, the clock bounds everything seen so far. -/
theorem clock_bounds (c : Int) (hc : minInt64 ≤ c) (xs : List ClockOp) (h : noOverflow c xs) :
    c ≤ clockAfter c xs ∧ (∀ v ∈ produced c xs, v ≤ clockAfter c xs) ∧
      (∀ t ∈ inputs xs, t < clockAfter c xs) := by
  induction xs generalizing c with
  | nil => simp [clockAfter, produced, inputs]
  | cons x xs ih =>
    cases x with
    | observe t =>
      obtain ⟨h1, h2⟩ := h
      have e := observe_eq hc h1
      have hl := max_ge_left c t
      have hr := max_ge_right c t
      obtain ⟨a, b, d⟩ := ih (observe c t) (by omega) h2
      have hs : clockAfter c (ClockOp.observe t :: xs) = clockAfter (observe c t) xs := rfl
      rw [hs]
      refine ⟨by omega, ?_, ?_⟩
      · intro v hv
        simp only [produced, ClockOp.apply, List.mem_cons] at hv
        rcases hv with rfl | hv
        · exact a
        · exact b v hv
      · intro u hu
        simp only [inputs, List.mem_cons] at hu
        rcases hu with rfl | hu
        · omega
        · exact d u hu
    | tick =>
      obtain ⟨h1, h2⟩ := h
      have e := tick_eq hc h1
      obtain ⟨a, b, d⟩ := ih (tick c) (by omega) h2
      have hs : clockAfter c (ClockOp.tick :: xs) = clockAfter (tick c) xs := rfl
      rw [hs]
      refine ⟨by omega, ?_, ?_⟩
      · intro v hv
        simp only [produced, ClockOp.apply, List.mem_cons] at hv
        rcases hv with rfl | hv
        · exact a
        · exact b v hv
      · intro u hu
        exact d u hu

/-- C1 (as stated, refuted): from clock 0, observing the largest `int64` timestamp produces the
    smallest `int64`, which is not greater than the timestamp passed; and a tick at the largest
    `int64` produces a value below the one produced just before. -/
theorem C1_counterexample :
    (inputsInt64 [ClockOp.observe maxInt64] ∧ ¬ clockMonotone 0 [ClockOp.observe maxInt64]) ∧
    (inputsInt64 [ClockOp.observe (maxInt64 - 1), ClockOp.tick] ∧
      ¬ clockMonotone 0 [ClockOp.observe (maxInt64 - 1), ClockOp.tick]) := by
  refine ⟨⟨?_, ?_⟩, ?_, ?_⟩
  · intro t ht
    simp only [inputs, List.mem_singleton] at ht
    subst ht
    decide
  · intro h
    have := (h [] (ClockOp.observe maxInt64) [] rfl).2 maxInt64 (by simp [inputs])
    revert this
    decide
  · intro t ht
    simp only [inputs, List.mem_singleton] at ht
    subst ht
    decide
  · intro h
    have := (h [ClockOp.observe (maxInt64 - 1)] ClockOp.tick [] rfl).1 maxInt64 (by decide)
    revert this
    decide

/-- C1 (amended): from a clock that is an `int64`, in particular from 0, for every sequence of
    observe and tick updates none of which overflows, every value produced is greater than every
    value produced earlier and than every input timestamp passed so far. -/
theorem C1_clock_monotone_without_overflow (ops : List ClockOp) (h : noOverflow 0 ops) :
    clockMonotone 0 ops := by
  intro pre op post e
  subst e
  have hpre := noOverflow_append 0 pre (op :: post) h
  have hb : noOverflow 0 pre := by
    clear hpre
    revert h
    generalize (0 : Int) = c
    induction pre generalizing c with
    | nil => intro _; trivial
    | cons x xs ih =>
      intro h
      cases x with
      | observe t => exact ⟨h.1, ih _ h.2⟩
      | tick => exact ⟨h.1, ih _ h.2⟩
  obtain ⟨a, b, d⟩ := clock_bounds 0 (by decide) pre hb
  have hc : minInt64 ≤ clockAfter 0 pre := le_trans (by decide) a
  cases op with
  | observe t =>
    have e := observe_eq hc hpre.1
    have hl := max_ge_left (clockAfter 0 pre) t
    have hr := max_ge_right (clockAfter 0 pre) t
    refine ⟨?_, ?_⟩
    · intro v hv
      have := b v hv
      simp only [ClockOp.apply]
      omega
    · intro u hu
      rw [inputs_append] at hu
      simp only [inputs, List.mem_append, List.mem_singleton] at hu
      simp only [ClockOp.apply]
      rcases hu with hu | rfl
      · have := d u hu
        omega
      · omega
  | tick =>
    have e := tick_eq hc hpre.1
    refine ⟨?_, ?_⟩
    · intro v hv
      have := b v hv
      simp only [ClockOp.apply]
      omega
    · intro u hu
      rw [inputs_append] at hu
      simp only [inputs, List.append_nil] at hu
      simp only [ClockOp.apply]
      have := d u hu
      omega

/-- From clock 0 the updates observe 5, observe -3, tick do not overflow and are monotone. -/
theorem C1_clock_monotone_without_overflow_witness :
    noOverflow 0 [ClockOp.observe 5, ClockOp.observe (-3), ClockOp.tick] ∧
    clockMonotone 0 [ClockOp.observe 5, ClockOp.observe (-3), ClockOp.tick] :=
  ⟨by decide, C1_clock_monotone_without_overflow _ (by decide)⟩

/-! ## Traces, broadcast and the mutex -/

theorem broadcasts_append (xs ys : List Effect) :
    broadcasts (xs ++ ys) = broadcasts xs ++ broadcasts ys := by
  induction xs with
  | nil => rfl
  | cons x xs ih => cases x <;> simp [broadcasts, ih]

theorem signals_append (xs ys : List Effect) : signals (xs ++ ys) = signals xs ++ signals ys := by
  induction xs with
  | nil => rfl
  | cons x xs ih => cases x <;> simp [signals, ih]

theorem directSends_append (xs ys : List Effect) :
    directSends (xs ++ ys) = directSends xs ++ directSends ys := by
  induction xs with
  | nil => rfl
  | cons x xs ih => cases x <;> simp [directSends, ih]

theorem spawnSends_eq_map (msg : ServerMessage) (l : List (Sigma fun _ : Int => Client)) :
    broadcasts (l.map fun e => Effect.goSend e.1 e.2.stream msg) = [] ∧
    signals (l.map fun e => Effect.goSend e.1 e.2.stream msg) = [] ∧
    directSends (l.map fun e => Effect.goSend e.1 e.2.stream msg) = [] := by
  induction l with
  | nil => exact ⟨rfl, rfl, rfl⟩
  | cons x xs ih => simpa [broadcasts, signals, directSends] using ih

theorem broadcasts_spawnSends (msg : ServerMessage) (c : Registry) :
    broadcasts (spawnSends msg c) = [] := (spawnSends_eq_map msg _).1

theorem signals_spawnSends (msg : ServerMessage) (c : Registry) :
    signals (spawnSends msg c) = [] := (spawnSends_eq_map msg _).2.1

theorem directSends_spawnSends (msg : ServerMessage) (c : Registry) :
    directSends (spawnSends msg c) = [] := (spawnSends_eq_map msg _).2.2

/-- A broadcast called while the mutex is free returns, after starting the sends, and leaves the
    server state as it was. -/
theorem broadcast_free (msg : ServerMessage) (s : ChatServiceServer) (out : List Effect)
    (hfree : s.mu = false) :
    broadcast msg { s := s, out := out } =
      .done () { s := s, out := out ++ [Effect.broadcast msg] ++ spawnSends msg s.clients } := by
  obtain ⟨mu, clients, clock⟩ := s
  simp only at hfree
  subst hfree
  simp [broadcast, lock, unlock, emit, Outcome.andThen]

/-- A broadcast called while the mutex is locked blocks for ever and starts no send. -/
theorem broadcast_held (msg : ServerMessage) (s : ChatServiceServer) (out : List Effect)
    (hheld : s.mu = true) :
    broadcast msg { s := s, out := out } =
      .deadlock { s := s, out := out ++ [Effect.broadcast msg] } := by
  simp [broadcast, lock, emit, Outcome.andThen, hheld]

/-! ## White space trimming -/

/-- What TrimSpace returns: the text is white space, then the result, then white space, and the
    result neither starts nor ends with white space. -/
theorem TrimSpace_spec (s : String) :
    (∃ pre post : List Char, s.data = pre ++ (TrimSpace s).data ++ post ∧
      (∀ c ∈ pre, isSpace c = true) ∧ (∀ c ∈ post, isSpace c = true)) ∧
    (∀ c, (TrimSpace s).data.head? = some c → isSpace c = false) ∧
    (∀ c, (TrimSpace s).data.getLast? = some c → isSpace c = false) := by
  have hd : (TrimSpace s).data = (s.data.dropWhile isSpace).rdropWhile isSpace := rfl
  rw [hd]
  refine ⟨⟨s.data.takeWhile isSpace,
      ((s.data.dropWhile isSpace).reverse.takeWhile isSpace).reverse, ?_, ?_, ?_⟩, ?_, ?_⟩
  · have h1 := List.takeWhile_append_dropWhile isSpace s.data
    have h2 := List.takeWhile_append_dropWhile isSpace (s.data.dropWhile isSpace).reverse
    have h3 : s.data.dropWhile isSpace =
        (List.rdropWhile isSpace (s.data.dropWhile isSpace)) ++
          ((s.data.dropWhile isSpace).reverse.takeWhile isSpace).reverse := by
      unfold List.rdropWhile
      rw [← List.reverse_append, h2, List.reverse_reverse]
    rw [List.append_assoc, ← h3, h1]
  · intro c hc
    exact List.mem_takeWhile_imp hc
  · intro c hc
    exact List.mem_takeWhile_imp (List.mem_reverse.mp hc)
  · intro c hc
    obtain ⟨t, ht⟩ := List.rdropWhile_prefix isSpace (l := s.data.dropWhile isSpace)
    cases hr : List.rdropWhile isSpace (s.data.dropWhile isSpace) with
    | nil => rw [hr] at hc; simp at hc
    | cons x xs =>
      rw [hr] at hc ht
      simp only [List.head?_cons, Option.some.injEq] at hc
      subst hc
      have hne : s.data.dropWhile isSpace ≠ [] := by rw [← ht]; simp
      have := List.head_dropWhile_not isSpace s.data hne
      have hx : (s.data.dropWhile isSpace).head hne = x := by
        simp only [← ht, List.cons_append, List.head_cons]
      rw [hx] at this
      exact this
  · intro c hc
    have hne : List.rdropWhile isSpace (s.data.dropWhile isSpace) ≠ [] := by
      intro h; rw [h] at hc; simp at hc
    have h := List.rdropWhile_last_not isSpace (s.data.dropWhile isSpace) hne
    rw [List.getLast?_eq_getLast _ hne] at hc
    simp only [Option.some.injEq] at hc
    rw [hc] at h
    simpa using h

/-! ## C2, C3: the JOIN handshake -/

/-- With the mutex locked, the handshake on a message of type JOIN blocks at its first statement
    after the type check, with nothing done. -/
theorem handshake_blocked (s : ChatServiceServer) (stream : Nat) (msg : JoinMsgLeave)
    (hjoin : msg.Type_ = .JOIN) (hheld : s.mu = true) :
    Chat.handshake stream (.msg msg) (fresh s) = .deadlock (fresh s) := by
  simp [Chat.handshake, fresh, hjoin, lock, Outcome.andThen, hheld]

/-- The handshake on a JOIN with a new id, the mutex being free: the client is registered, the
    clock observed, and the JOIN notice is handed to broadcast with the mutex free again. -/
theorem handshake_join (s : ChatServiceServer) (stream : Nat) (msg : JoinMsgLeave)
    (hjoin : msg.Type_ = .JOIN) (hnew : msg.Id ∉ s.clients) (hfree : s.mu = false) :
    Chat.handshake stream (.msg msg) (fresh s) =
      .done (.ok { id := msg.Id, name := TrimSpace msg.ClientName, stream := stream,
                   active := true })
        { s := { mu := false
                 clients := s.clients.insert msg.Id
                   { id := msg.Id, name := TrimSpace msg.ClientName, stream := stream,
                     active := true }
                 clock := observe s.clock msg.Timestamp }
          out := [Effect.broadcast (joinNotice
                   { id := msg.Id, name := TrimSpace msg.ClientName, stream := stream,
                     active := true } (observe s.clock msg.Timestamp))] ++
                 spawnSends (joinNotice
                   { id := msg.Id, name := TrimSpace msg.ClientName, stream := stream,
                     active := true } (observe s.clock msg.Timestamp))
                   (s.clients.insert msg.Id
                     { id := msg.Id, name := TrimSpace msg.ClientName, stream := stream,
                       active := true }) } := by
  obtain ⟨mu, clients, clock⟩ := s
  simp only at hfree
  subst hfree
  have hs : (clients.lookup msg.Id).isSome = false := by
    rw [Bool.eq_false_iff]; intro h; exact hnew (AList.lookup_isSome.mp h)
  simp [Chat.handshake, fresh, hjoin, hs, lock, unlock, Outcome.andThen, setObserve,
    broadcast_free]

/-- C3 (as stated, refuted): on the new server, a JOIN with a new id and the largest `int64`
    timestamp leaves the clock at the smallest `int64`, not at max(old clock, timestamp) + 1, and
    the JOIN notice carries that value. And on the server whose mutex the disconnect of Bob left
    locked, a JOIN with a new id registers nobody and hands nothing to broadcast. -/
theorem C3_counterexample :
    (newServer.clients.lookup lateJoin.Id = none ∧
      (Chat.handshake 9 (.msg lateJoin) (fresh newServer)).routine.s.clock = minInt64 ∧
      (Chat.handshake 9 (.msg lateJoin) (fresh newServer)).routine.s.clock ≠
        max newServer.clock lateJoin.Timestamp + 1 ∧
      (broadcasts (Chat.handshake 9 (.msg lateJoin) (fresh newServer)).routine.out).map
        (fun m => m.Timestamp) = [minInt64]) ∧
    (bobGone.clients.lookup danJoin.Id = none ∧
      (Chat.handshake 9 (.msg danJoin) (fresh bobGone)).isDeadlock = true ∧
      (Chat.handshake 9 (.msg danJoin) (fresh bobGone)).routine.s.clients.lookup danJoin.Id
        = none ∧
      broadcasts (Chat.handshake 9 (.msg danJoin) (fresh bobGone)).routine.out = []) := by
  decide

/-- C3 (amended): on a server whose mutex is free and whose clock is an `int64`, for a JOIN
    message whose id is not registered and with max(old clock, msg.Timestamp) below the largest
    `int64`, the handshake succeeds with the client (msg.Id, trimmed msg.ClientName, this stream,
    active); the registry is the old one with that client inserted at msg.Id, so the lookup at
    msg.Id gives the client and every other lookup is unchanged; the clock is
    max(old clock, msg.Timestamp) + 1; the mutex is free again; and exactly one event is handed
    to broadcast, the JOIN notice carrying msg.Id, the trimmed name and that clock value. The
    trimmed name is msg.ClientName without the white space before and after it. -/
theorem C3_successful_join (s : ChatServiceServer) (stream : Nat) (msg : JoinMsgLeave)
    (hjoin : msg.Type_ = .JOIN) (hnew : msg.Id ∉ s.clients) (hfree : s.mu = false)
    (hclock : minInt64 ≤ s.clock) (hno : max s.clock msg.Timestamp < maxInt64) :
    ∃ (r : Routine) (name : String),
      Chat.handshake stream (.msg msg) (fresh s) =
        .done (.ok { id := msg.Id, name := name, stream := stream, active := true }) r ∧
      (∃ pre post : List Char, msg.ClientName.data = pre ++ name.data ++ post ∧
        (∀ c ∈ pre, isSpace c = true) ∧ (∀ c ∈ post, isSpace c = true)) ∧
      (∀ c, name.data.head? = some c → isSpace c = false) ∧
      (∀ c, name.data.getLast? = some c → isSpace c = false) ∧
      name = TrimSpace msg.ClientName ∧
      r.s.clients = s.clients.insert msg.Id
        { id := msg.Id, name := name, stream := stream, active := true } ∧
      r.s.clients.lookup msg.Id =
        some { id := msg.Id, name := name, stream := stream, active := true } ∧
      (∀ k, k ≠ msg.Id → r.s.clients.lookup k = s.clients.lookup k) ∧
      (∀ k, k ∈ r.s.clients ↔ k = msg.Id ∨ k ∈ s.clients) ∧
      r.s.clock = max s.clock msg.Timestamp + 1 ∧
      r.s.mu = false ∧
      broadcasts r.out =
        [{ SenderId := msg.Id, SenderName := name,
           MsgStream := "Participant " ++ name ++ " joined Chit Chat at logical time L=" ++
             fmtInt (max s.clock msg.Timestamp + 1),
           Type_ := .JOIN, Timestamp := max s.clock msg.Timestamp + 1 }] := by
  have hobs := observe_eq hclock hno
  have hrun := handshake_join s stream msg hjoin hnew hfree
  rw [hobs] at hrun
  obtain ⟨h1, h2, h3⟩ := TrimSpace_spec msg.ClientName
  refine ⟨_, TrimSpace msg.ClientName, hrun, h1, h2, h3, rfl, rfl, ?_, ?_, ?_, rfl, rfl, ?_⟩
  · exact AList.lookup_insert _
  · intro k hk
    exact AList.lookup_insert_ne hk
  · intro k
    exact AList.mem_insert _
  · rw [broadcasts_append, broadcasts_spawnSends]
    rfl

/-- On the new server the JOIN of " Ann\n" with timestamp 4 on stream 7 registers the client
    named "Ann" at id 3, sets the clock to 5 and hands one JOIN notice, from "Ann" at time 5, to
    broadcast. -/
theorem C3_successful_join_witness :
    newServer.clients.lookup sampleJoin.Id = none ∧
    (Chat.handshake 7 (.msg sampleJoin) (fresh newServer)).routine.s.clients.lookup 3 =
      some { id := 3, name := "Ann", stream := 7, active := true } ∧
    (Chat.handshake 7 (.msg sampleJoin) (fresh newServer)).routine.s.clock = 5 ∧
    broadcasts (Chat.handshake 7 (.msg sampleJoin) (fresh newServer)).routine.out =
      [{ SenderId := 3, SenderName := "Ann",
         MsgStream := "Participant Ann joined Chit Chat at logical time L=5",
         Type_ := .JOIN, Timestamp := 5 }] := by
  have hnew : sampleJoin.Id ∉ newServer.clients := by
    intro h
    have := AList.lookup_isSome.mpr h
    revert this
    decide
  obtain ⟨r, name, h1, _, _, _, hn, _, h7, _, _, h10, _, h12⟩ :=
    C3_successful_join newServer 7 sampleJoin rfl hnew rfl (by decide) (by decide)
  have hname : name = "Ann" := by rw [hn]; decide
  subst hname
  rw [h1]
  refine ⟨by decide, ?_, ?_, ?_⟩
  · show r.s.clients.lookup 3 = _
    exact h7
  · show r.s.clock = 5
    rw [h10]; decide
  · show broadcasts r.out = _
    rw [h12]; decide

/-! ## C4, C5, C6: MESSAGE events in the receive loop -/

theorem utf8ByteSize_go_ge (l : List Char) : l.length ≤ String.utf8ByteSize.go l := by
  induction l with
  | nil => simp [String.utf8ByteSize.go]
  | cons c cs ih =>
    have := Char.utf8Size_pos c
    simp only [String.utf8ByteSize.go, List.length_cons]
    omega

/-- A string has at most as many characters as bytes. -/
theorem charCount_le_len (s : String) : charCount s ≤ len s := by
  cases s with
  | mk l => exact utf8ByteSize_go_ge l

/-- One turn of the receive loop, the mutex being free, on an event that is not a LEAVE and whose
    trimmed text is longer than 128 bytes. -/
theorem recvLoop_oversize (client : Client) (msg : JoinMsgLeave) (rest : List RecvResult)
    (s : ChatServiceServer) (out : List Effect) (hfree : s.mu = false)
    (hty : msg.Type_ ≠ .LEAVE) (hlen : 128 < len (TrimSpace msg.Msg)) :
    Chat.recvLoop client (.msg msg :: rest) { s := s, out := out } =
      Chat.recvLoop client rest
        { s := { mu := false, clients := s.clients, clock := observe s.clock msg.Timestamp }
          out := out ++ [Effect.send client.stream
                  (rejectNotice (TrimSpace msg.Msg) (observe s.clock msg.Timestamp))] } := by
  obtain ⟨mu, clients, clock⟩ := s
  simp only at hfree
  subst hfree
  rw [Chat.recvLoop]
  simp [hty, hlen, lock, unlock, Outcome.andThen, setObserve, emit]

/-- One turn of the receive loop, the mutex being free, on an event that is not a LEAVE and whose
    trimmed text has at most 128 bytes. -/
theorem recvLoop_accept (client : Client) (msg : JoinMsgLeave) (rest : List RecvResult)
    (s : ChatServiceServer) (out : List Effect) (hfree : s.mu = false)
    (hty : msg.Type_ ≠ .LEAVE) (hlen : len (TrimSpace msg.Msg) ≤ 128) :
    Chat.recvLoop client (.msg msg :: rest) { s := s, out := out } =
      Chat.recvLoop client rest
        { s := { mu := false, clients := s.clients, clock := observe s.clock msg.Timestamp }
          out := out ++ [Effect.broadcast
                  (chatMessage client msg (observe s.clock msg.Timestamp))] ++
                spawnSends (chatMessage client msg (observe s.clock msg.Timestamp))
                  s.clients } := by
  obtain ⟨mu, clients, clock⟩ := s
  simp only at hfree
  subst hfree
  rw [Chat.recvLoop]
  have h : ¬ 128 < len (TrimSpace msg.Msg) := by omega
  simp [hty, h, lock, unlock, Outcome.andThen, setObserve, broadcast_free]

/-- One turn of the receive loop on an event that is not a LEAVE, the mutex being locked: the
    routine blocks in Lock with nothing done. -/
theorem recvLoop_message_blocked (client : Client) (msg : JoinMsgLeave)
    (rest : List RecvResult) (s : ChatServiceServer) (out : List Effect) (hheld : s.mu = true)
    (hty : msg.Type_ ≠ .LEAVE) :
    Chat.recvLoop client (.msg msg :: rest) { s := s, out := out } =
      .deadlock { s := s, out := out } := by
  rw [Chat.recvLoop]
  by_cases h : 128 < len (TrimSpace msg.Msg) <;>
    simp [hty, h, lock, Outcome.andThen, hheld]

/-- C5 (as stated, refuted): for Ann on the server she joined, an oversize MESSAGE with the
    largest `int64` timestamp takes the clock from 5 to the smallest `int64`, which is not
    max(old clock, timestamp) + 1 and is below the old clock. And once the disconnect of Bob has
    left the mutex locked, an oversize MESSAGE of Ann gets no reply and the clock stays. -/
theorem C5_counterexample :
    (lateMessage.Type_ = .MESSAGE ∧ 128 < charCount (TrimSpace lateMessage.Msg) ∧
      annJoined.clock = 5 ∧
      (Chat.recvLoop ann [.msg lateMessage] (fresh annJoined)).routine.s.clock = minInt64 ∧
      (Chat.recvLoop ann [.msg lateMessage] (fresh annJoined)).routine.s.clock ≠
        max annJoined.clock lateMessage.Timestamp + 1 ∧
      (directSends (Chat.recvLoop ann [.msg lateMessage] (fresh annJoined)).routine.out).map
        (fun p => p.2.Timestamp) = [minInt64]) ∧
    (longMessage.Type_ = .MESSAGE ∧ 128 < charCount (TrimSpace longMessage.Msg) ∧
      bobGone.clients.lookup 3 = some ann ∧
      (Chat.recvLoop ann [.msg longMessage] (fresh bobGone)).isDeadlock = true ∧
      directSends (Chat.recvLoop ann [.msg longMessage] (fresh bobGone)).routine.out = [] ∧
      (Chat.recvLoop ann [.msg longMessage] (fresh bobGone)).routine.s.clock =
        bobGone.clock) := by
  decide

/-- C5 (amended): with the mutex free, the clock an `int64` and max(old clock, msg.Timestamp)
    below the largest `int64`, an oversize MESSAGE (trimmed text above 128 characters, or above
    128 bytes as the code counts) makes the receive loop append exactly one action to its trace,
    the direct send of the rejection (sender id 0, sender name Server, text ending in
    Limit is 128., timestamp the new clock) on the stream of the client itself; no broadcast; the
    registry is unchanged; the clock becomes max(old clock, msg.Timestamp) + 1; the mutex is
    free again; and the loop goes on with the next read. -/
theorem C5_oversize_message_effects (client : Client) (msg : JoinMsgLeave)
    (rest : List RecvResult) (s : ChatServiceServer) (out : List Effect)
    (hty : msg.Type_ = .MESSAGE)
    (hbig : 128 < charCount (TrimSpace msg.Msg) ∨ 128 < len (TrimSpace msg.Msg))
    (hfree : s.mu = false) (hclock : minInt64 ≤ s.clock)
    (hno : max s.clock msg.Timestamp < maxInt64) :
    Chat.recvLoop client (.msg msg :: rest) { s := s, out := out } =
      Chat.recvLoop client rest
        { s := { mu := false, clients := s.clients, clock := max s.clock msg.Timestamp + 1 }
          out := out ++ [Effect.send client.stream
                  { SenderId := 0
                    SenderName := "Server"
                    MsgStream := "Message too long (" ++ Nat.repr (len (TrimSpace msg.Msg)) ++
                      " chars). Limit is 128."
                    Type_ := .MESSAGE
                    Timestamp := max s.clock msg.Timestamp + 1 }] } := by
  have hlen : 128 < len (TrimSpace msg.Msg) := by
    rcases hbig with h | h
    · exact lt_of_lt_of_le h (charCount_le_len _)
    · exact h
  have hne : msg.Type_ ≠ .LEAVE := by rw [hty]; decide
  have h := recvLoop_oversize client msg rest s out hfree hne hlen
  rw [observe_eq hclock hno] at h
  exact h

/-- On the server with Ann and Bob and clock 10, a text of 130 letters with white space around
    it, sent by Ann with timestamp 11, is answered by one rejection on her stream 7 naming 130
    characters, at time 12; nothing is handed to broadcast and the loop waits for the next
    read. -/
theorem C5_oversize_message_effects_witness :
    128 < charCount (TrimSpace longMessage.Msg) ∧ twoClients.mu = false ∧
    (Chat.recvLoop ann [.msg longMessage] { s := twoClients, out := [] }).routine.out =
      [Effect.send 7
        { SenderId := 0, SenderName := "Server",
          MsgStream := "Message too long (130 chars). Limit is 128.",
          Type_ := .MESSAGE, Timestamp := 12 }] ∧
    (Chat.recvLoop ann [.msg longMessage] { s := twoClients, out := [] }).routine.s.clock = 12 := by
  have h := C5_oversize_message_effects ann longMessage [] twoClients [] rfl
    (Or.inl (by decide)) rfl (by decide) (by decide)
  rw [h]
  decide

/-- C4 (the code departs from the claim): a MESSAGE whose trimmed text has 65 characters, each of
    two bytes, is within the limit of 128 characters, yet the receive loop hands nothing to
    broadcast and sends the rejection to the sender, because `len` counts 130 bytes. -/
theorem C4_multibyte_text_rejected :
    accentedMessage.Type_ = .MESSAGE ∧
    charCount (TrimSpace accentedMessage.Msg) = 65 ∧
    len (TrimSpace accentedMessage.Msg) = 130 ∧
    broadcasts (Chat.recvLoop ann [.msg accentedMessage] (fresh twoClients)).routine.out = [] ∧
    directSends (Chat.recvLoop ann [.msg accentedMessage] (fresh twoClients)).routine.out =
      [(7, { SenderId := 0, SenderName := "Server",
             MsgStream := "Message too long (130 chars). Limit is 128.",
             Type_ := .MESSAGE, Timestamp := 12 })] := by
  decide

/-- The rule the code applies, the mutex being free: an event that is not a LEAVE is kept from
    broadcast exactly when its trimmed text has more than 128 bytes. -/
theorem message_rejected_iff_bytes (client : Client) (msg : JoinMsgLeave)
    (s : ChatServiceServer) (hfree : s.mu = false) (hty : msg.Type_ ≠ .LEAVE) :
    broadcasts (Chat.recvLoop client [.msg msg] (fresh s)).routine.out = [] ↔
      128 < len (TrimSpace msg.Msg) := by
  by_cases h : 128 < len (TrimSpace msg.Msg)
  · simp only [fresh, recvLoop_oversize client msg [] s [] hfree hty h, h, iff_true]
    simp [Chat.recvLoop, Outcome.routine, broadcasts]
  · simp only [fresh, recvLoop_accept client msg [] s [] hfree hty (by omega), h, iff_false]
    simp [Chat.recvLoop, Outcome.routine, broadcasts]

/-- C6 (the code departs from the claim): for a MESSAGE with text "  hi \n" the one event handed
    to broadcast carries the text as received, white space included, not the trimmed text "hi";
    sender id, sender name, type and timestamp are as claimed. In the same way a letter followed
    by 200 spaces passes the size check and is broadcast with all its 201 characters. -/
theorem C6_broadcast_text_not_trimmed :
    broadcasts (Chat.recvLoop ann [.msg paddedMessage] (fresh twoClients)).routine.out =
      [{ SenderId := 3, SenderName := "Ann", MsgStream := "  hi \n", Type_ := .MESSAGE,
         Timestamp := 12 }] ∧
    TrimSpace paddedMessage.Msg = "hi" ∧
    paddedMessage.Msg ≠ TrimSpace paddedMessage.Msg ∧
    (broadcasts (Chat.recvLoop ann [.msg spacedMessage] (fresh twoClients)).routine.out).map
      (fun m => charCount m.MsgStream) = [201] := by
  decide

/-- What the code does for an accepted event, the mutex being free: one broadcast, of the text
    as received. -/
theorem accepted_message_broadcast (client : Client) (msg : JoinMsgLeave)
    (s : ChatServiceServer) (hfree : s.mu = false) (hty : msg.Type_ ≠ .LEAVE)
    (hlen : len (TrimSpace msg.Msg) ≤ 128) :
    broadcasts (Chat.recvLoop client [.msg msg] (fresh s)).routine.out =
      [{ SenderId := client.id, SenderName := client.name, MsgStream := msg.Msg,
         Type_ := .MESSAGE, Timestamp := wrapInt64 (max s.clock msg.Timestamp + 1) }] ∧
    (Chat.recvLoop client [.msg msg] (fresh s)).routine.s.clock =
      wrapInt64 (max s.clock msg.Timestamp + 1) := by
  simp only [fresh, recvLoop_accept client msg [] s [] hfree hty hlen]
  simp [Chat.recvLoop, Outcome.routine, broadcasts, broadcasts_append, broadcasts_spawnSends,
    chatMessage, observe]

/-! ## C7, C9, C10: the end of a connection -/

/-- Called while the mutex is free, removeClient locks it, advances the clock, deletes the entry,
    hands its LEAVE notice to broadcast and then blocks for ever: broadcast calls Lock on the
    mutex that removeClient still holds. -/
theorem removeClient_deadlocks (client : Client) (s : ChatServiceServer) (out : List Effect)
    (hfree : s.mu = false) :
    removeClient client { s := s, out := out } =
      .deadlock
        { s := { mu := true, clients := s.clients.erase client.id, clock := tick s.clock }
          out := out ++ [Effect.delete client.id] ++
            [Effect.broadcast (removeClientNotice client (tick s.clock))] } := by
  simp [removeClient, lock, Outcome.andThen, emit, broadcast_held, hfree]

/-- Called while the mutex is locked, removeClient blocks at once. -/
theorem removeClient_blocked (client : Client) (s : ChatServiceServer) (out : List Effect)
    (hheld : s.mu = true) :
    removeClient client { s := s, out := out } = .deadlock { s := s, out := out } := by
  simp [removeClient, lock, Outcome.andThen, hheld]

/-- The end of the receive goroutine after the loop: it stops inside removeClient. -/
theorem afterLoop_deadlocks (client : Client) (s : ChatServiceServer) (out : List Effect)
    (hfree : s.mu = false) :
    Chat.afterLoop client { s := s, out := out } =
      .deadlock
        { s := { mu := true, clients := s.clients.erase client.id, clock := tick s.clock }
          out := out ++ [Effect.delete client.id] ++
            [Effect.broadcast (removeClientNotice client (tick s.clock))] } := by
  simp [Chat.afterLoop, removeClient_deadlocks, Outcome.andThen, hfree]

/-- The receive goroutine on an explicit LEAVE event, the mutex being free. -/
theorem recvLoop_leave (client : Client) (msg : JoinMsgLeave) (rest : List RecvResult)
    (s : ChatServiceServer) (out : List Effect) (hfree : s.mu = false)
    (hty : msg.Type_ = .LEAVE) :
    Chat.recvLoop client (.msg msg :: rest) { s := s, out := out } =
      .deadlock
        { s := { mu := true
                 clients := s.clients.erase client.id
                 clock := tick (observe s.clock msg.Timestamp) }
          out := out ++ [Effect.broadcast (leaveNotice client (observe s.clock msg.Timestamp))] ++
            spawnSends (leaveNotice client (observe s.clock msg.Timestamp)) s.clients ++
            [Effect.delete client.id] ++
            [Effect.broadcast
              (removeClientNotice client (tick (observe s.clock msg.Timestamp)))] } := by
  obtain ⟨mu, clients, clock⟩ := s
  simp only at hfree
  subst hfree
  rw [Chat.recvLoop]
  simp [hty, lock, unlock, Outcome.andThen, setObserve, broadcast_free, removeClient_deadlocks]

/-- The receive goroutine on a clean end of stream, the mutex being free. -/
theorem recvLoop_eof (client : Client) (rest : List RecvResult)
    (s : ChatServiceServer) (out : List Effect) (hfree : s.mu = false) :
    Chat.recvLoop client (.fail .EOF :: rest) { s := s, out := out } =
      .deadlock
        { s := { mu := true, clients := s.clients.erase client.id, clock := tick s.clock }
          out := out ++ [Effect.delete client.id] ++
            [Effect.broadcast (removeClientNotice client (tick s.clock))] } := by
  rw [Chat.recvLoop]
  exact afterLoop_deadlocks client s out hfree

/-- The receive goroutine on a read error other than end of stream, the mutex being free. -/
theorem recvLoop_error (client : Client) (e : String) (rest : List RecvResult)
    (s : ChatServiceServer) (out : List Effect) (hfree : s.mu = false) :
    Chat.recvLoop client (.fail (.other e) :: rest) { s := s, out := out } =
      .deadlock
        { s := { mu := true, clients := s.clients.erase client.id, clock := tick s.clock }
          out := out ++ [Effect.signal (.other e)] ++ [Effect.delete client.id] ++
            [Effect.broadcast (removeClientNotice client (tick s.clock))] } := by
  rw [Chat.recvLoop]
  exact afterLoop_deadlocks client s (out ++ [Effect.signal (.other e)]) hfree

/-- C7 (the code departs from the claim): started with the mutex free, on an explicit LEAVE event
    the receive goroutine hands two LEAVE events for the client to broadcast, its own notice and
    then the notice of removeClient, with two different timestamps; the entry of the client is
    deleted and every other entry is unchanged. On end of stream and on a read error one LEAVE
    event is handed over. -/
theorem C7_explicit_leave_hands_two_notices (client : Client) (s : ChatServiceServer)
    (id : Int) (name text : String) (t : Int) (e : String) (rest : List RecvResult) :
    leaveBroadcasts client.id
        (Chat.recvLoop client
          (.msg { Id := id, ClientName := name, Type_ := .LEAVE, Timestamp := t, Msg := text }
            :: rest) (fresh { s with mu := false })).routine.out =
      [leaveNotice client (observe s.clock t),
       removeClientNotice client (tick (observe s.clock t))] ∧
    (Chat.recvLoop client
        (.msg { Id := id, ClientName := name, Type_ := .LEAVE, Timestamp := t, Msg := text }
          :: rest) (fresh { s with mu := false })).routine.s.clients.lookup client.id = none ∧
    (∀ k, k ≠ client.id →
      (Chat.recvLoop client
        (.msg { Id := id, ClientName := name, Type_ := .LEAVE, Timestamp := t, Msg := text }
          :: rest) (fresh { s with mu := false })).routine.s.clients.lookup k
        = s.clients.lookup k) ∧
    leaveBroadcasts client.id
        (Chat.recvLoop client (.fail .EOF :: rest) (fresh { s with mu := false })).routine.out =
      [removeClientNotice client (tick s.clock)] ∧
    leaveBroadcasts client.id
        (Chat.recvLoop client (.fail (.other e) :: rest)
          (fresh { s with mu := false })).routine.out =
      [removeClientNotice client (tick s.clock)] := by
  have hl := recvLoop_leave client
    { Id := id, ClientName := name, Type_ := .LEAVE, Timestamp := t, Msg := text } rest
    { s with mu := false } [] rfl rfl
  have he := recvLoop_eof client rest { s with mu := false } [] rfl
  have hr := recvLoop_error client e rest { s with mu := false } [] rfl
  unfold fresh
  rw [hl, he, hr]
  refine ⟨?_, ?_, ?_, ?_, ?_⟩
  · simp [Outcome.routine, leaveBroadcasts, broadcasts_append,
      broadcasts, broadcasts_spawnSends, leaveNotice, removeClientNotice]
  · simp [Outcome.routine]
  · intro k hk
    exact AList.lookup_erase_ne hk
  · simp [Outcome.routine, leaveBroadcasts, broadcasts, removeClientNotice]
  · simp [Outcome.routine, leaveBroadcasts, broadcasts, removeClientNotice]

/-- C9 (the code departs from the claim): removeClient calls broadcast while it holds the mutex,
    so broadcast blocks in Lock on a mutex its own routine holds. Hence removeClient never
    returns and leaves the mutex locked, and the receive goroutine stops there on an explicit
    LEAVE, on end of stream and on a read error; after a LEAVE or an end of stream nothing was
    sent on the completion channel, and `Chat` never returns. -/
theorem C9_removeClient_locks_held_mutex (client : Client) (s : ChatServiceServer)
    (out : List Effect) (id : Int) (name text : String) (t : Int) (e : String)
    (rest : List RecvResult) :
    (removeClient client { s := { s with mu := false }, out := out }).isDeadlock = true ∧
    (removeClient client { s := { s with mu := false }, out := out }).routine.s.mu = true ∧
    (Chat.recvLoop client
        (.msg { Id := id, ClientName := name, Type_ := .LEAVE, Timestamp := t, Msg := text }
          :: rest) (fresh { s with mu := false })).isDeadlock = true ∧
    (Chat.recvLoop client (.fail .EOF :: rest) (fresh { s with mu := false })).isDeadlock
      = true ∧
    (Chat.recvLoop client (.fail (.other e) :: rest)
      (fresh { s with mu := false })).isDeadlock = true ∧
    (Chat 7 (.msg sampleJoin) [.msg leaveMessage] emptyServer).ret = none ∧
    (Chat 7 (.msg sampleJoin) [.fail .EOF] emptyServer).ret = none := by
  have hl := recvLoop_leave client
    { Id := id, ClientName := name, Type_ := .LEAVE, Timestamp := t, Msg := text } rest
    { s with mu := false } [] rfl rfl
  have he := recvLoop_eof client rest { s with mu := false } [] rfl
  have hr := recvLoop_error client e rest { s with mu := false } [] rfl
  have hm := removeClient_deadlocks client { s with mu := false } out rfl
  unfold fresh
  rw [hl, he, hr, hm]
  exact ⟨rfl, rfl, rfl, rfl, rfl, by decide, by decide⟩

/-- C10 (the code departs from the claim): started with the mutex free, after an explicit LEAVE
    event and after a clean end of stream the receive goroutine sends nothing on the completion
    channel, since it never comes back from removeClient; after a read error it sends the error
    once, before the entry of the client is deleted, and never reaches the second send that
    follows removeClient. -/
theorem C10_completion_signal_count_and_order (client : Client) (s : ChatServiceServer)
    (id : Int) (name text : String) (t : Int) (e : String) (rest : List RecvResult) :
    signals (Chat.recvLoop client
        (.msg { Id := id, ClientName := name, Type_ := .LEAVE, Timestamp := t, Msg := text }
          :: rest) (fresh { s with mu := false })).routine.out = [] ∧
    signals (Chat.recvLoop client (.fail .EOF :: rest)
      (fresh { s with mu := false })).routine.out = [] ∧
    (Chat.recvLoop client (.fail (.other e) :: rest)
      (fresh { s with mu := false })).routine.out =
      [Effect.signal (.other e), Effect.delete client.id,
       Effect.broadcast (removeClientNotice client (tick s.clock))] := by
  have hl := recvLoop_leave client
    { Id := id, ClientName := name, Type_ := .LEAVE, Timestamp := t, Msg := text } rest
    { s with mu := false } [] rfl rfl
  have he := recvLoop_eof client rest { s with mu := false } [] rfl
  have hr := recvLoop_error client e rest { s with mu := false } [] rfl
  unfold fresh
  rw [hl, he, hr]
  refine ⟨?_, ?_, ?_⟩
  · simp [Outcome.routine, signals_append, signals, signals_spawnSends]
  · simp [Outcome.routine, signals]
  · simp [Outcome.routine]
/-! ## C8: broadcast fan-out and deactivation -/

end ChitChat
